import Mathlib

/-
Shallow embedding of FESTIM/generic_simulation.py (function run, lines 24-297),
the time-stepping and solve orchestration engine of FESTIM.

Modelling conventions:
- Field values (FEniCS Function objects) are version stamps (natural numbers);
  every external solve or interpolation writes a fresh stamp.  Assignments
  (u_n.assign(u), previous_solutions_traps[j].assign(...)) copy stamps.
- External collaborators (mesh creation, formulation assembly, the Newton
  solvers, post-processing, exports) are recorded as events in a trace; per the
  spec, post-processing must not mutate solver-owned state, so its event leaves
  the field state unchanged.
- Python dict accesses are modelled by Option-valued record fields; a missing
  required key raises KeyError, mirroring the dict lookup on lines 70-72.
- Machine floats are modelled as exact rationals (the claims under scrutiny are
  stated "under exact arithmetic").
-/

namespace FESTIMModel

/-- Python exceptions that the orchestration code can raise or catch. -/
inductive Exc
  | ValueError (msg : String)
  | KeyError (k : String)
  | TypeError
  | OSError
deriving DecidableEq

/-- Behaviour of the external FESTIM.export.export_parameters call for a given
configuration/environment: it can succeed, raise TypeError, or raise some other
exception. -/
inductive ExportOutcome
  | success
  | raisesTypeError
  | raisesOther (e : Exc)
deriving DecidableEq

/-- The temperature-dependent property objects returned by create_properties
(line 126): D is always present; H, thermal_cond (and cp, rho) and S may be
None depending on the material list. -/
inductive PropName
  | D
  | H
  | thermal_cond
  | S
deriving DecidableEq

/-- Observable events of a run: calls into external collaborators and the
in-place state assignments of the orchestrator, in program order. -/
inductive Event
  | export_parameters_attempted
  | create_mesh
  | solve_heat_stationary
  | update_expressions (t : ℚ)
  | assign_T_expression (t : ℚ)
  | refresh_property (name : PropName)
  | update_bci (t : ℚ)
  | solve_heat_transient (abs_tol rel_tol : ℚ)
  | assign_T_n
  | solve_it (t : ℚ)
  | solve_once
  | solve_extrinsic_trap (j : ℕ) (bcs : List ℕ)
  | run_post_processing (t : ℚ)
  | assign_u_n
  | assign_previous_trap (j : ℕ)
deriving DecidableEq

/-- The parameters["solving_parameters"] sub-dictionary: the "type" key may be
absent (line 59 guards on its presence), and "final_time"/"initial_stepsize"
are only read in transient mode (lines 71-72). -/
structure SolvingParameters where
  type : Option String
  final_time : Option ℚ
  initial_stepsize : Option ℚ
deriving DecidableEq

/-- The configuration slice of the parameters dictionary that the orchestration
logic of run inspects.  traps holds the "type" entry of each trap dictionary
(none when the key is absent), in declaration order.  has_H, has_thermal_cond,
has_S record whether create_properties returns non-None H, thermal_cond, S for
the configured materials (lines 195-200 guard on None). -/
structure Parameters where
  exports_parameters : Option ExportOutcome
  solving_parameters : SolvingParameters
  temperature_type : String
  traps : List (Option String)
  has_H : Bool
  has_thermal_cond : Bool
  has_S : Bool
deriving DecidableEq

/-- Number of extrinsic traps: the filter on lines 131-132
(d for d in parameters["traps"] if "type" in d.keys() if d["type"] == "extrinsic"). -/
def nExtrinsic (p : Parameters) : ℕ :=
  (p.traps.filter (fun d => d == some ("extrinsic"))).length

/-- The mutable simulation state of run: the clock, the version-stamped fields
u, u_n, T, T_n, the extrinsic trap fields and their previous-solution slots,
the next fresh version stamp, and the trace of events so far. -/
structure SimState where
  t : ℚ
  u : ℕ
  u_n : ℕ
  T : ℕ
  T_n : ℕ
  extrinsic_traps : List ℕ
  previous_solutions_traps : List ℕ
  fresh : ℕ
  trace : List Event
deriving DecidableEq

/-- Record an event. -/
def emit (s : SimState) (e : Event) : SimState :=
  { s with trace := s.trace ++ [e] }

/-- Line 186: t += float(dt). -/
def advanceTime (dtv : ℚ) (s : SimState) : SimState :=
  { s with t := s.t + dtv }

/-- Lines 187-188: FESTIM.helpers.update_expressions(expressions, t) -- every
registered time-dependent expression receives the new time. -/
def updateExprStep (s : SimState) : SimState :=
  emit s (Event.update_expressions s.t)

/-- Lines 190-193: if the temperature is expression-driven, T_n.assign(T), then
T is re-interpolated from the expression at the new time (a fresh stamp). -/
def tempExprStep (p : Parameters) (s : SimState) : SimState :=
  if p.temperature_type = ("expression") then
    emit { s with T_n := s.T, T := s.fresh, fresh := s.fresh + 1 }
      (Event.assign_T_expression s.t)
  else s

/-- Lines 194-203: rebind every non-None temperature-dependent property to the
temperature function (D._T = T and so on); when S is not None, also push the
new time into the _bci attributes of the expressions (lines 201-203). -/
def refreshStep (p : Parameters) (s : SimState) : SimState :=
  let s1 := emit s (Event.refresh_property PropName.D)
  let s2 := if p.has_H then emit s1 (Event.refresh_property PropName.H) else s1
  let s3 := if p.has_thermal_cond then
      emit s2 (Event.refresh_property PropName.thermal_cond) else s2
  if p.has_S then
    emit (emit s3 (Event.refresh_property PropName.S)) (Event.update_bci s3.t)
  else s3

/-- Lines 212-222: if the temperature is PDE-driven transient, solve the heat
subproblem with Newton absolute tolerance 1e-3 and relative tolerance 1e-10
(T gets a fresh stamp), then commit with T_n.assign(T). -/
def heatStep (p : Parameters) (s : SimState) : SimState :=
  if p.temperature_type = ("solve_transient") then
    let s1 := emit { s with T := s.fresh, fresh := s.fresh + 1 }
      (Event.solve_heat_transient (1 / 1000) (1 / 10000000000))
    emit { s1 with T_n := s1.T } Event.assign_T_n
  else s

/-- Lines 225-226: FESTIM.solving.solve_it(F, u, J, bcs, t, dt, ...) -- the
transport Newton solve at the current time, writing a fresh stamp into u. -/
def transportStep (s : SimState) : SimState :=
  emit { s with u := s.fresh, fresh := s.fresh + 1 } (Event.solve_it s.t)

/-- Line 230 (one iteration of the loop on line 229):
solve(extrinsic_formulations[j] == 0, extrinsic_traps[j], []) -- the j-th
extrinsic trap ODE is solved with an empty boundary-condition list, writing a
fresh stamp into extrinsic_traps[j]. -/
def solveTrapStep (s : SimState) (j : ℕ) : SimState :=
  emit { s with extrinsic_traps := s.extrinsic_traps.set j s.fresh,
                fresh := s.fresh + 1 }
    (Event.solve_extrinsic_trap j [])

/-- Lines 233-244: FESTIM.post_processing.run_post_processing(...).  Per the
spec contract (and the fact that it is an external read-only consumer), it
does not mutate the field state. -/
def postStep (s : SimState) : SimState :=
  emit s (Event.run_post_processing s.t)

/-- Line 248: u_n.assign(u). -/
def commitUStep (s : SimState) : SimState :=
  emit { s with u_n := s.u } Event.assign_u_n

/-- Line 250 (one iteration of the loop on line 249):
previous_solutions_traps[j].assign(extrinsic_traps[j]). -/
def commitTrapStep (s : SimState) (j : ℕ) : SimState :=
  emit { s with previous_solutions_traps :=
      s.previous_solutions_traps.set j (s.extrinsic_traps.getD j 0) }
    (Event.assign_previous_trap j)

/-- The body of the transient while loop, lines 184-250, in program order.
The number of extrinsic formulations equals the number of extrinsic traps
(formulation_extrinsic_traps, an external collaborator, builds one formulation
per extrinsic trap; modelled from the spec). -/
def doStep (p : Parameters) (dtv : ℚ) (s : SimState) : SimState :=
  let s1 := updateExprStep (advanceTime dtv s)
  let s2 := tempExprStep p s1
  let s3 := refreshStep p s2
  let s4 := heatStep p s3
  let s5 := transportStep s4
  let s6 := (List.range (nExtrinsic p)).foldl solveTrapStep s5
  let s7 := postStep s6
  let s8 := commitUStep s7
  (List.range (nExtrinsic p)).foldl commitTrapStep s8

/-- The trace segment that the expression-driven temperature update emits. -/
def tempExprTrace (p : Parameters) (t : ℚ) : List Event :=
  if p.temperature_type = ("expression") then [Event.assign_T_expression t]
  else []

/-- The trace segment that the property refresh (lines 194-203) emits. -/
def refreshTrace (p : Parameters) (t : ℚ) : List Event :=
  [Event.refresh_property PropName.D]
  ++ (if p.has_H then [Event.refresh_property PropName.H] else [])
  ++ (if p.has_thermal_cond then [Event.refresh_property PropName.thermal_cond]
      else [])
  ++ (if p.has_S then [Event.refresh_property PropName.S, Event.update_bci t]
      else [])

/-- The trace segment that the transient heat solve (lines 212-222) emits. -/
def heatTrace (p : Parameters) : List Event :=
  if p.temperature_type = ("solve_transient") then
    [Event.solve_heat_transient (1 / 1000) (1 / 10000000000), Event.assign_T_n]
  else []

/-- The full event trace of one transient step taken at (new) time t. -/
def stepTrace (p : Parameters) (t : ℚ) : List Event :=
  [Event.update_expressions t]
  ++ tempExprTrace p t
  ++ refreshTrace p t
  ++ heatTrace p
  ++ [Event.solve_it t]
  ++ (List.range (nExtrinsic p)).map (fun j => Event.solve_extrinsic_trap j [])
  ++ [Event.run_post_processing t]
  ++ [Event.assign_u_n]
  ++ (List.range (nExtrinsic p)).map (fun j => Event.assign_previous_trap j)

/-- The while loop on line 184 (while t < final_time), with explicit fuel
(the Python loop can fail to terminate when dt <= 0).  Returns the final state
and the number of completed iterations, or none if the fuel ran out. -/
def timeStepping (p : Parameters) (dtv F : ℚ) :
    ℕ → SimState → Option (SimState × ℕ)
  | 0, s => if s.t < F then none else some (s, 0)
  | fuel + 1, s =>
    if s.t < F then
      match timeStepping p dtv F fuel (doStep p dtv s) with
      | none => none
      | some (s2, n) => some (s2, n + 1)
    else some (s, 0)

/-- Lines 57-66: resolve the transient flag from
parameters["solving_parameters"]["type"]; the default (key absent) is
transient; an unrecognized value raises ValueError(str(value) + ' unkown')
(typo as in the source). -/
def checkTransient (sp : SolvingParameters) : Except Exc Bool :=
  match sp.type with
  | none => Except.ok true
  | some ty =>
    if ty = ("solve_transient") then Except.ok true
    else if ty = ("solve_stationary") then Except.ok false
    else Except.error (Exc.ValueError (ty ++ (" unkown")))

/-- Lines 48-53: if exports has a "parameters" key, call
FESTIM.export.export_parameters inside try/except TypeError: pass.  Returns
the emitted events and an uncaught exception, if any. -/
def exportParametersStep (p : Parameters) : List Event × Option Exc :=
  match p.exports_parameters with
  | none => ([], none)
  | some ExportOutcome.success => ([Event.export_parameters_attempted], none)
  | some ExportOutcome.raisesTypeError =>
      ([Event.export_parameters_attempted], none)
  | some (ExportOutcome.raisesOther e) =>
      ([Event.export_parameters_attempted], some e)

/-- Events of the pre-loop setup (lines 76-176): mesh construction, and the
stationary heat solve on line 123 when the temperature type is
"solve_stationary". -/
def setupTrace (p : Parameters) : List Event :=
  [Event.create_mesh]
  ++ (if p.temperature_type = ("solve_stationary")
      then [Event.solve_heat_stationary] else [])

/-- State after setup (lines 76-178): t = 0 (line 178), distinct initial
stamps for u, u_n, T, T_n and for every extrinsic trap field and its
previous-solution slot; the fresh counter is larger than every initial
stamp. -/
def initialState (p : Parameters) (tr : List Event) : SimState :=
  { t := 0
    u := 0
    u_n := 1
    T := 2
    T_n := 3
    extrinsic_traps := (List.range (nExtrinsic p)).map (fun j => 4 + j)
    previous_solutions_traps :=
      (List.range (nExtrinsic p)).map (fun j => 4 + nExtrinsic p + j)
    fresh := 4 + 2 * nExtrinsic p
    trace := tr }

/-- State in which run aborts with an exception before reaching the loop
(only the trace is observable at that point). -/
def abortState (tr : List Event) : SimState :=
  { t := 0
    u := 0
    u_n := 1
    T := 2
    T_n := 3
    extrinsic_traps := []
    previous_solutions_traps := []
    fresh := 4
    trace := tr }

/-- Outcome of run: normal completion, a raised Python exception, or fuel
exhaustion (standing for the diverging while loop). -/
inductive Status
  | completed
  | raised (e : Exc)
  | outOfFuel
deriving DecidableEq

/-- Lines 255-257: the single stationary transport solve via
FESTIM.solving.solve_once. -/
def transportOnceStep (s : SimState) : SimState :=
  emit { s with u := s.fresh, fresh := s.fresh + 1 } Event.solve_once

/-- The run function of generic_simulation.py (lines 24-297): parameter export
(48-53), transient-flag resolution (57-66), reading final_time and
initial_stepsize in transient mode (70-72, KeyError when absent), setup
(76-178), then either the time-stepping loop (181-250) or the single
stationary solve plus post-processing (251-271). -/
def run (p : Parameters) (fuel : ℕ) : SimState × Status :=
  let ex := exportParametersStep p
  match ex.2 with
  | some e => (abortState ex.1, Status.raised e)
  | none =>
    match checkTransient p.solving_parameters with
    | Except.error e => (abortState ex.1, Status.raised e)
    | Except.ok transient =>
      if transient then
        match p.solving_parameters.final_time with
        | none => (abortState ex.1, Status.raised (Exc.KeyError ("final_time")))
        | some F =>
          match p.solving_parameters.initial_stepsize with
          | none =>
              (abortState ex.1,
                Status.raised (Exc.KeyError ("initial_stepsize")))
          | some dtv =>
            let s0 := initialState p (ex.1 ++ setupTrace p)
            match timeStepping p dtv F fuel s0 with
            | none => (s0, Status.outOfFuel)
            | some (s, _) => (s, Status.completed)
      else
        let s0 := initialState p (ex.1 ++ setupTrace p)
        (postStep (transportOnceStep s0), Status.completed)

/-- Modelled from the spec: the retention field computed by the repository's
post-processing/make_output code (FESTIM/post_processing.py and
FESTIM/__init__.py, not present under src; only the test
Tests/unit/test_export.py is).  Per the spec, retention is the pointwise sum
of the solute concentration and all trap densities. -/
def retention_field (α : Type) (solute : α → ℚ) (traps : List (α → ℚ)) :
    α → ℚ :=
  fun x => solute x + (traps.map (fun c => c x)).sum

/-- Event classifiers used by the ordering properties. -/
def isRefreshEvent : Event → Bool
  | Event.refresh_property _ => true
  | _ => false

def isHeatSolveEvent : Event → Bool
  | Event.solve_heat_transient _ _ => true
  | _ => false

def isTransportSolveEvent : Event → Bool
  | Event.solve_it _ => true
  | Event.solve_once => true
  | _ => false

def isTrapSolveEvent : Event → Bool
  | Event.solve_extrinsic_trap _ _ => true
  | _ => false

def isSolveEvent : Event → Bool
  | Event.solve_heat_stationary => true
  | Event.solve_heat_transient _ _ => true
  | Event.solve_it _ => true
  | Event.solve_once => true
  | Event.solve_extrinsic_trap _ _ => true
  | _ => false

def isSolveOnceEvent : Event → Bool
  | Event.solve_once => true
  | _ => false

def isPostProcessingEvent : Event → Bool
  | Event.run_post_processing _ => true
  | _ => false

def isCommitEvent : Event → Bool
  | Event.assign_u_n => true
  | Event.assign_previous_trap _ => true
  | _ => false

def isUpdateExpressionsEvent : Event → Bool
  | Event.update_expressions _ => true
  | _ => false

def isAssignTnEvent : Event → Bool
  | Event.assign_T_n => true
  | _ => false

/-- Every event satisfying p occurs strictly before every event satisfying q
in the list l. -/
def allBefore (l : List Event) (p q : Event → Bool) : Prop :=
  ∀ i j : Fin l.length,
    p (l.get i) = true → q (l.get j) = true → (i : ℕ) < (j : ℕ)

instance (l : List Event) (p q : Event → Bool) : Decidable (allBefore l p q) :=
  inferInstanceAs (Decidable (∀ _ _, _))

/- Concrete configurations used to instantiate the theorems. -/

/-- A small transient configuration: PDE-driven transient temperature, one
extrinsic trap, final_time 3, initial_stepsize 2, no parameter export. -/
def pBase : Parameters :=
  { exports_parameters := none
    solving_parameters :=
      { type := some ("solve_transient")
        final_time := some 3
        initial_stepsize := some 2 }
    temperature_type := ("solve_transient")
    traps := [some ("extrinsic")]
    has_H := false
    has_thermal_cond := false
    has_S := false }

/-- The same configuration in stationary mode. -/
def pStationary : Parameters :=
  { pBase with solving_parameters :=
      { type := some ("solve_stationary")
        final_time := none
        initial_stepsize := none } }

/-- A configuration with an unrecognized solving type. -/
def pBadType : Parameters :=
  { pBase with solving_parameters :=
      { type := some ("solve_stationnary")
        final_time := none
        initial_stepsize := none } }

/-- A configuration whose solving_parameters has no "type" key at all. -/
def pNoType : Parameters :=
  { pBase with solving_parameters :=
      { type := none
        final_time := some 3
        initial_stepsize := some 2 } }

/-- A configuration whose parameter export raises an uncaught (non-TypeError)
exception. -/
def pExportOther : Parameters :=
  { pBase with exports_parameters := some (ExportOutcome.raisesOther Exc.OSError) }

/-- A configuration whose parameter export raises TypeError. -/
def pExportTypeErr : Parameters :=
  { pBase with exports_parameters := some ExportOutcome.raisesTypeError }

/- Block lemmas: each step block appends its trace segment and preserves the
fields it does not touch. -/

@[simp] lemma emit_t (s : SimState) (e : Event) : (emit s e).t = s.t := rfl

@[simp] lemma emit_u (s : SimState) (e : Event) : (emit s e).u = s.u := rfl

@[simp] lemma emit_u_n (s : SimState) (e : Event) : (emit s e).u_n = s.u_n := rfl

@[simp] lemma emit_fresh (s : SimState) (e : Event) :
    (emit s e).fresh = s.fresh := rfl

@[simp] lemma emit_extrinsic (s : SimState) (e : Event) :
    (emit s e).extrinsic_traps = s.extrinsic_traps := rfl

@[simp] lemma emit_previous (s : SimState) (e : Event) :
    (emit s e).previous_solutions_traps = s.previous_solutions_traps := rfl

@[simp] lemma emit_trace (s : SimState) (e : Event) :
    (emit s e).trace = s.trace ++ [e] := rfl

@[simp] lemma advanceTime_t (dtv : ℚ) (s : SimState) :
    (advanceTime dtv s).t = s.t + dtv := rfl

@[simp] lemma advanceTime_trace (dtv : ℚ) (s : SimState) :
    (advanceTime dtv s).trace = s.trace := rfl

@[simp] lemma advanceTime_u (dtv : ℚ) (s : SimState) :
    (advanceTime dtv s).u = s.u := rfl

@[simp] lemma advanceTime_u_n (dtv : ℚ) (s : SimState) :
    (advanceTime dtv s).u_n = s.u_n := rfl

@[simp] lemma advanceTime_fresh (dtv : ℚ) (s : SimState) :
    (advanceTime dtv s).fresh = s.fresh := rfl

@[simp] lemma advanceTime_extrinsic (dtv : ℚ) (s : SimState) :
    (advanceTime dtv s).extrinsic_traps = s.extrinsic_traps := rfl

@[simp] lemma advanceTime_previous (dtv : ℚ) (s : SimState) :
    (advanceTime dtv s).previous_solutions_traps = s.previous_solutions_traps :=
  rfl

@[simp] lemma updateExprStep_t (s : SimState) : (updateExprStep s).t = s.t := rfl

@[simp] lemma updateExprStep_u (s : SimState) : (updateExprStep s).u = s.u := rfl

@[simp] lemma updateExprStep_u_n (s : SimState) :
    (updateExprStep s).u_n = s.u_n := rfl

@[simp] lemma updateExprStep_fresh (s : SimState) :
    (updateExprStep s).fresh = s.fresh := rfl

@[simp] lemma updateExprStep_extrinsic (s : SimState) :
    (updateExprStep s).extrinsic_traps = s.extrinsic_traps := rfl

@[simp] lemma updateExprStep_previous (s : SimState) :
    (updateExprStep s).previous_solutions_traps = s.previous_solutions_traps :=
  rfl

@[simp] lemma updateExprStep_trace (s : SimState) :
    (updateExprStep s).trace = s.trace ++ [Event.update_expressions s.t] := rfl

@[simp] lemma tempExprStep_t (p : Parameters) (s : SimState) :
    (tempExprStep p s).t = s.t := by
  unfold tempExprStep; split <;> rfl

@[simp] lemma tempExprStep_u (p : Parameters) (s : SimState) :
    (tempExprStep p s).u = s.u := by
  unfold tempExprStep; split <;> rfl

@[simp] lemma tempExprStep_u_n (p : Parameters) (s : SimState) :
    (tempExprStep p s).u_n = s.u_n := by
  unfold tempExprStep; split <;> rfl

@[simp] lemma tempExprStep_extrinsic (p : Parameters) (s : SimState) :
    (tempExprStep p s).extrinsic_traps = s.extrinsic_traps := by
  unfold tempExprStep; split <;> rfl

@[simp] lemma tempExprStep_previous (p : Parameters) (s : SimState) :
    (tempExprStep p s).previous_solutions_traps = s.previous_solutions_traps := by
  unfold tempExprStep; split <;> rfl

lemma tempExprStep_fresh_le (p : Parameters) (s : SimState) :
    s.fresh ≤ (tempExprStep p s).fresh := by
  unfold tempExprStep; split <;> simp

@[simp] lemma tempExprStep_trace (p : Parameters) (s : SimState) :
    (tempExprStep p s).trace = s.trace ++ tempExprTrace p s.t := by
  unfold tempExprStep tempExprTrace; split <;> simp

@[simp] lemma refreshStep_t (p : Parameters) (s : SimState) :
    (refreshStep p s).t = s.t := by
  unfold refreshStep
  cases p.has_H <;> cases p.has_thermal_cond <;> cases p.has_S <;> simp

@[simp] lemma refreshStep_u (p : Parameters) (s : SimState) :
    (refreshStep p s).u = s.u := by
  unfold refreshStep
  cases p.has_H <;> cases p.has_thermal_cond <;> cases p.has_S <;> simp

@[simp] lemma refreshStep_u_n (p : Parameters) (s : SimState) :
    (refreshStep p s).u_n = s.u_n := by
  unfold refreshStep
  cases p.has_H <;> cases p.has_thermal_cond <;> cases p.has_S <;> simp

@[simp] lemma refreshStep_fresh (p : Parameters) (s : SimState) :
    (refreshStep p s).fresh = s.fresh := by
  unfold refreshStep
  cases p.has_H <;> cases p.has_thermal_cond <;> cases p.has_S <;> simp

@[simp] lemma refreshStep_extrinsic (p : Parameters) (s : SimState) :
    (refreshStep p s).extrinsic_traps = s.extrinsic_traps := by
  unfold refreshStep
  cases p.has_H <;> cases p.has_thermal_cond <;> cases p.has_S <;> simp

@[simp] lemma refreshStep_previous (p : Parameters) (s : SimState) :
    (refreshStep p s).previous_solutions_traps = s.previous_solutions_traps := by
  unfold refreshStep
  cases p.has_H <;> cases p.has_thermal_cond <;> cases p.has_S <;> simp

@[simp] lemma refreshStep_trace (p : Parameters) (s : SimState) :
    (refreshStep p s).trace = s.trace ++ refreshTrace p s.t := by
  unfold refreshStep refreshTrace
  cases p.has_H <;> cases p.has_thermal_cond <;> cases p.has_S <;> simp

@[simp] lemma heatStep_t (p : Parameters) (s : SimState) :
    (heatStep p s).t = s.t := by
  unfold heatStep; split <;> rfl

@[simp] lemma heatStep_u (p : Parameters) (s : SimState) :
    (heatStep p s).u = s.u := by
  unfold heatStep; split <;> rfl

@[simp] lemma heatStep_u_n (p : Parameters) (s : SimState) :
    (heatStep p s).u_n = s.u_n := by
  unfold heatStep; split <;> rfl

@[simp] lemma heatStep_extrinsic (p : Parameters) (s : SimState) :
    (heatStep p s).extrinsic_traps = s.extrinsic_traps := by
  unfold heatStep; split <;> rfl

@[simp] lemma heatStep_previous (p : Parameters) (s : SimState) :
    (heatStep p s).previous_solutions_traps = s.previous_solutions_traps := by
  unfold heatStep; split <;> rfl

lemma heatStep_fresh_le (p : Parameters) (s : SimState) :
    s.fresh ≤ (heatStep p s).fresh := by
  unfold heatStep; split <;> simp

@[simp] lemma heatStep_trace (p : Parameters) (s : SimState) :
    (heatStep p s).trace = s.trace ++ heatTrace p := by
  unfold heatStep heatTrace; split <;> simp

@[simp] lemma transportStep_t (s : SimState) : (transportStep s).t = s.t := rfl

@[simp] lemma transportStep_u (s : SimState) :
    (transportStep s).u = s.fresh := rfl

@[simp] lemma transportStep_u_n (s : SimState) :
    (transportStep s).u_n = s.u_n := rfl

@[simp] lemma transportStep_fresh (s : SimState) :
    (transportStep s).fresh = s.fresh + 1 := rfl

@[simp] lemma transportStep_extrinsic (s : SimState) :
    (transportStep s).extrinsic_traps = s.extrinsic_traps := rfl

@[simp] lemma transportStep_previous (s : SimState) :
    (transportStep s).previous_solutions_traps = s.previous_solutions_traps :=
  rfl

@[simp] lemma transportStep_trace (s : SimState) :
    (transportStep s).trace = s.trace ++ [Event.solve_it s.t] := rfl

@[simp] lemma postStep_t (s : SimState) : (postStep s).t = s.t := rfl

@[simp] lemma postStep_u (s : SimState) : (postStep s).u = s.u := rfl

@[simp] lemma postStep_u_n (s : SimState) : (postStep s).u_n = s.u_n := rfl

@[simp] lemma postStep_fresh (s : SimState) : (postStep s).fresh = s.fresh := rfl

@[simp] lemma postStep_extrinsic (s : SimState) :
    (postStep s).extrinsic_traps = s.extrinsic_traps := rfl

@[simp] lemma postStep_previous (s : SimState) :
    (postStep s).previous_solutions_traps = s.previous_solutions_traps := rfl

@[simp] lemma postStep_trace (s : SimState) :
    (postStep s).trace = s.trace ++ [Event.run_post_processing s.t] := rfl

@[simp] lemma commitUStep_t (s : SimState) : (commitUStep s).t = s.t := rfl

@[simp] lemma commitUStep_u (s : SimState) : (commitUStep s).u = s.u := rfl

@[simp] lemma commitUStep_u_n (s : SimState) : (commitUStep s).u_n = s.u := rfl

@[simp] lemma commitUStep_fresh (s : SimState) :
    (commitUStep s).fresh = s.fresh := rfl

@[simp] lemma commitUStep_extrinsic (s : SimState) :
    (commitUStep s).extrinsic_traps = s.extrinsic_traps := rfl

@[simp] lemma commitUStep_previous (s : SimState) :
    (commitUStep s).previous_solutions_traps = s.previous_solutions_traps := rfl

@[simp] lemma commitUStep_trace (s : SimState) :
    (commitUStep s).trace = s.trace ++ [Event.assign_u_n] := rfl

/- Lemmas about the extrinsic-trap solve loop (line 229-230). -/

@[simp] lemma solveFold_t (n : ℕ) (s : SimState) :
    ((List.range n).foldl solveTrapStep s).t = s.t := by
  induction n with
  | zero => rfl
  | succ n ih =>
    rw [List.range_succ, List.foldl_append]
    simp [solveTrapStep, ih]

@[simp] lemma solveFold_u (n : ℕ) (s : SimState) :
    ((List.range n).foldl solveTrapStep s).u = s.u := by
  induction n with
  | zero => rfl
  | succ n ih =>
    rw [List.range_succ, List.foldl_append]
    simp [solveTrapStep, ih]

@[simp] lemma solveFold_u_n (n : ℕ) (s : SimState) :
    ((List.range n).foldl solveTrapStep s).u_n = s.u_n := by
  induction n with
  | zero => rfl
  | succ n ih =>
    rw [List.range_succ, List.foldl_append]
    simp [solveTrapStep, ih]

@[simp] lemma solveFold_previous (n : ℕ) (s : SimState) :
    ((List.range n).foldl solveTrapStep s).previous_solutions_traps
      = s.previous_solutions_traps := by
  induction n with
  | zero => rfl
  | succ n ih =>
    rw [List.range_succ, List.foldl_append]
    simp [solveTrapStep, ih]

@[simp] lemma solveFold_fresh (n : ℕ) (s : SimState) :
    ((List.range n).foldl solveTrapStep s).fresh = s.fresh + n := by
  induction n with
  | zero => rfl
  | succ n ih =>
    rw [List.range_succ, List.foldl_append]
    simp [solveTrapStep, ih]
    omega

@[simp] lemma solveFold_extrinsic_length (n : ℕ) (s : SimState) :
    ((List.range n).foldl solveTrapStep s).extrinsic_traps.length
      = s.extrinsic_traps.length := by
  induction n with
  | zero => rfl
  | succ n ih =>
    rw [List.range_succ, List.foldl_append]
    simp [solveTrapStep, ih]

@[simp] lemma solveFold_trace (n : ℕ) (s : SimState) :
    ((List.range n).foldl solveTrapStep s).trace
      = s.trace
        ++ (List.range n).map (fun j => Event.solve_extrinsic_trap j []) := by
  induction n with
  | zero => simp
  | succ n ih =>
    rw [List.range_succ, List.foldl_append, List.map_append]
    simp [solveTrapStep, ih]

lemma solveFold_extrinsic_getD :
    ∀ (n : ℕ) (s : SimState), n ≤ s.extrinsic_traps.length →
    ∀ j, j < n →
      ((List.range n).foldl solveTrapStep s).extrinsic_traps.getD j 0
        = s.fresh + j := by
  intro n
  induction n with
  | zero => intro s hn j hj; omega
  | succ n ih =>
    intro s hn j hj
    rw [List.range_succ, List.foldl_append]
    simp only [List.foldl_cons, List.foldl_nil, solveTrapStep, emit_extrinsic]
    have hlen : ((List.range n).foldl solveTrapStep s).extrinsic_traps.length
        = s.extrinsic_traps.length := solveFold_extrinsic_length n s
    have hfr : ((List.range n).foldl solveTrapStep s).fresh = s.fresh + n :=
      solveFold_fresh n s
    rcases Nat.lt_succ_iff_lt_or_eq.mp hj with hj2 | hj2
    · have hne : n ≠ j := by omega
      simp only [List.getD_eq_getElem?_getD, List.getElem?_set_ne hne]
      rw [← List.getD_eq_getElem?_getD]
      exact ih s (by omega) j hj2
    · subst hj2
      have hlt : j < ((List.range j).foldl solveTrapStep s).extrinsic_traps.length := by
        rw [hlen]; omega
      simp only [List.getD_eq_getElem?_getD, List.getElem?_set_self hlt,
        Option.getD_some]
      rw [hfr]

/- Lemmas about the previous-solution commit loop (lines 249-250). -/

@[simp] lemma commitFold_t (n : ℕ) (s : SimState) :
    ((List.range n).foldl commitTrapStep s).t = s.t := by
  induction n with
  | zero => rfl
  | succ n ih =>
    rw [List.range_succ, List.foldl_append]
    simp [commitTrapStep, ih]

@[simp] lemma commitFold_u (n : ℕ) (s : SimState) :
    ((List.range n).foldl commitTrapStep s).u = s.u := by
  induction n with
  | zero => rfl
  | succ n ih =>
    rw [List.range_succ, List.foldl_append]
    simp [commitTrapStep, ih]

@[simp] lemma commitFold_u_n (n : ℕ) (s : SimState) :
    ((List.range n).foldl commitTrapStep s).u_n = s.u_n := by
  induction n with
  | zero => rfl
  | succ n ih =>
    rw [List.range_succ, List.foldl_append]
    simp [commitTrapStep, ih]

@[simp] lemma commitFold_fresh (n : ℕ) (s : SimState) :
    ((List.range n).foldl commitTrapStep s).fresh = s.fresh := by
  induction n with
  | zero => rfl
  | succ n ih =>
    rw [List.range_succ, List.foldl_append]
    simp [commitTrapStep, ih]

@[simp] lemma commitFold_extrinsic (n : ℕ) (s : SimState) :
    ((List.range n).foldl commitTrapStep s).extrinsic_traps
      = s.extrinsic_traps := by
  induction n with
  | zero => rfl
  | succ n ih =>
    rw [List.range_succ, List.foldl_append]
    simp [commitTrapStep, ih]

@[simp] lemma commitFold_previous_length (n : ℕ) (s : SimState) :
    ((List.range n).foldl commitTrapStep s).previous_solutions_traps.length
      = s.previous_solutions_traps.length := by
  induction n with
  | zero => rfl
  | succ n ih =>
    rw [List.range_succ, List.foldl_append]
    simp [commitTrapStep, ih]

@[simp] lemma commitFold_trace (n : ℕ) (s : SimState) :
    ((List.range n).foldl commitTrapStep s).trace
      = s.trace ++ (List.range n).map (fun j => Event.assign_previous_trap j) := by
  induction n with
  | zero => simp
  | succ n ih =>
    rw [List.range_succ, List.foldl_append, List.map_append]
    simp [commitTrapStep, ih]

lemma commitFold_previous_getD :
    ∀ (n : ℕ) (s : SimState), n ≤ s.previous_solutions_traps.length →
    ∀ j, j < n →
      ((List.range n).foldl commitTrapStep s).previous_solutions_traps.getD j 0
        = s.extrinsic_traps.getD j 0 := by
  intro n
  induction n with
  | zero => intro s hn j hj; omega
  | succ n ih =>
    intro s hn j hj
    rw [List.range_succ, List.foldl_append]
    simp only [List.foldl_cons, List.foldl_nil, commitTrapStep, emit_previous]
    have hlen : ((List.range n).foldl commitTrapStep s).previous_solutions_traps.length
        = s.previous_solutions_traps.length := commitFold_previous_length n s
    have hext : ((List.range n).foldl commitTrapStep s).extrinsic_traps
        = s.extrinsic_traps := commitFold_extrinsic n s
    rcases Nat.lt_succ_iff_lt_or_eq.mp hj with hj2 | hj2
    · have hne : n ≠ j := by omega
      have h1 : ∀ (l : List ℕ) (v : ℕ), (l.set n v).getD j 0 = l.getD j 0 := by
        intro l v
        simp only [List.getD_eq_getElem?_getD, List.getElem?_set_ne hne]
      rw [h1]
      exact ih s (by omega) j hj2
    · subst hj2
      have hlt : j <
          ((List.range j).foldl commitTrapStep s).previous_solutions_traps.length := by
        rw [hlen]; omega
      simp only [List.getD_eq_getElem?_getD, List.getElem?_set_self hlt,
        Option.getD_some, hext]

/-- After committing all previous-solution slots (lines 249-250), the
previous-solution list equals the current extrinsic-trap list. -/
lemma commitFold_prev_eq_extrinsic (n : ℕ) (s : SimState)
    (h1 : s.extrinsic_traps.length = n)
    (h2 : s.previous_solutions_traps.length = n) :
    ((List.range n).foldl commitTrapStep s).previous_solutions_traps
      = ((List.range n).foldl commitTrapStep s).extrinsic_traps := by
  have hext := commitFold_extrinsic n s
  apply List.ext_getElem
  · rw [commitFold_previous_length, hext, h1, h2]
  · intro i hi1 hi2
    have hi : i < n := by
      rw [commitFold_previous_length, h2] at hi1
      exact hi1
    have e1 := commitFold_previous_getD n s (le_of_eq h2.symm) i hi
    have hi3 : i < s.extrinsic_traps.length := by rw [h1]; exact hi
    rw [List.getD_eq_getElem _ _ hi1, List.getD_eq_getElem _ _ hi3] at e1
    rw [e1]
    congr 1
    exact hext.symm

/- doStep-level lemmas. -/

/-- The trace appended by one transient step taken from state s is exactly
stepTrace at the new time s.t + dt. -/
lemma doStep_trace (p : Parameters) (dtv : ℚ) (s : SimState) :
    (doStep p dtv s).trace = s.trace ++ stepTrace p (s.t + dtv) := by
  simp [doStep, stepTrace, List.append_assoc]

/-- Each transient step advances the time by exactly dt (line 186). -/
lemma doStep_t (p : Parameters) (dtv : ℚ) (s : SimState) :
    (doStep p dtv s).t = s.t + dtv := by
  simp [doStep]

/-- After one transient step, u_n holds the current transport solution
(line 248). -/
lemma doStep_u_n_eq_u (p : Parameters) (dtv : ℚ) (s : SimState) :
    (doStep p dtv s).u_n = (doStep p dtv s).u := by
  simp [doStep]

/-- After one transient step, every previous-solution slot holds the current
extrinsic-trap field (lines 249-250). -/
lemma doStep_prev_eq_extrinsic (p : Parameters) (dtv : ℚ) (s : SimState)
    (h1 : s.extrinsic_traps.length = nExtrinsic p)
    (h2 : s.previous_solutions_traps.length = nExtrinsic p) :
    (doStep p dtv s).previous_solutions_traps
      = (doStep p dtv s).extrinsic_traps := by
  unfold doStep
  apply commitFold_prev_eq_extrinsic
  · simp [h1]
  · simp [h2]

/-- After one transient step, every extrinsic-trap field holds a stamp at
least s.fresh: a value freshly produced by this step's ODE solves, not a value
existing before the step. -/
lemma doStep_extrinsic_fresh (p : Parameters) (dtv : ℚ) (s : SimState)
    (h1 : s.extrinsic_traps.length = nExtrinsic p) :
    ∀ j, j < nExtrinsic p →
      s.fresh ≤ (doStep p dtv s).extrinsic_traps.getD j 0 := by
  intro j hj
  unfold doStep
  rw [commitFold_extrinsic, commitUStep_extrinsic, postStep_extrinsic]
  have hlen : (transportStep (heatStep p (refreshStep p (tempExprStep p
      (updateExprStep (advanceTime dtv s)))))).extrinsic_traps.length
      = nExtrinsic p := by simp [h1]
  rw [solveFold_extrinsic_getD (nExtrinsic p) _ (le_of_eq hlen.symm) j hj]
  have hf : s.fresh ≤ (transportStep (heatStep p (refreshStep p (tempExprStep p
      (updateExprStep (advanceTime dtv s)))))).fresh := by
    simp only [transportStep_fresh, refreshStep_fresh]
    calc s.fresh ≤ (tempExprStep p (updateExprStep (advanceTime dtv s))).fresh := by
          simpa using tempExprStep_fresh_le p (updateExprStep (advanceTime dtv s))
    _ ≤ (heatStep p (refreshStep p (tempExprStep p
          (updateExprStep (advanceTime dtv s))))).fresh := by
          simpa using heatStep_fresh_le p (refreshStep p (tempExprStep p
            (updateExprStep (advanceTime dtv s))))
    _ ≤ _ + 1 := Nat.le_succ _
  omega

/- Ordering machinery for event traces. -/

/-- If no p-event lies in the right part and no q-event lies in the left part,
then every p-event of the concatenation precedes every q-event. -/
lemma allBefore_append_split (l1 l2 : List Event) (p q : Event → Bool)
    (h1 : ∀ e ∈ l2, p e = false) (h2 : ∀ e ∈ l1, q e = false) :
    allBefore (l1 ++ l2) p q := by
  intro i j hp hq
  have hi : (i : ℕ) < l1.length := by
    by_contra hcon
    push_neg at hcon
    have hmem : (l1 ++ l2).get i ∈ l2 := by
      rw [List.get_eq_getElem, List.getElem_append_right hcon]
      exact List.getElem_mem _
    rw [h1 _ hmem] at hp
    exact Bool.false_ne_true hp
  have hj : l1.length ≤ (j : ℕ) := by
    by_contra hcon
    push_neg at hcon
    have hmem : (l1 ++ l2).get j ∈ l1 := by
      rw [List.get_eq_getElem, List.getElem_append_left hcon]
      exact List.getElem_mem _
    rw [h2 _ hmem] at hq
    exact Bool.false_ne_true hq
  omega

/- Arithmetic for the time-stepping loop (claim about ceil(F/dt)). -/

lemma natCeil_sub_one (x : ℚ) (hx : 0 < x) : ⌈x - 1⌉₊ = ⌈x⌉₊ - 1 := by
  rw [← Int.ceil_toNat (x - 1), ← Int.ceil_toNat x, Int.ceil_sub_one]
  have h2 : 0 < ⌈x⌉ := Int.ceil_pos.mpr hx
  omega

/-- Exact behaviour of the while loop on lines 184-186: starting from state s,
with positive step size, the loop runs for exactly ceil((F - s.t)/dt)
iterations and the final time is s.t plus that many steps. -/
lemma timeStepping_spec (p : Parameters) (dtv F : ℚ) (hdt : 0 < dtv) :
    ∀ (fuel : ℕ) (s : SimState), ⌈(F - s.t) / dtv⌉₊ ≤ fuel →
      ∃ s2, timeStepping p dtv F fuel s = some (s2, ⌈(F - s.t) / dtv⌉₊)
        ∧ s2.t = s.t + (⌈(F - s.t) / dtv⌉₊ : ℚ) * dtv := by
  intro fuel
  induction fuel with
  | zero =>
    intro s hf
    have h0 : ⌈(F - s.t) / dtv⌉₊ = 0 := Nat.le_zero.mp hf
    have hle : (F - s.t) / dtv ≤ 0 := Nat.ceil_eq_zero.mp h0
    have hts : ¬ s.t < F := by
      intro hlt
      have hpos : 0 < (F - s.t) / dtv := div_pos (by linarith) hdt
      linarith
    refine ⟨s, ?_, ?_⟩
    · simp [timeStepping, if_neg hts, h0]
    · rw [h0]
      simp
  | succ fuel ih =>
    intro s hf
    by_cases hts : s.t < F
    · have hpos : 0 < (F - s.t) / dtv := div_pos (by linarith) hdt
      have hk1 : 1 ≤ ⌈(F - s.t) / dtv⌉₊ := Nat.one_le_ceil_iff.mpr hpos
      have hstep : (doStep p dtv s).t = s.t + dtv := doStep_t p dtv s
      have hrec : ⌈(F - (doStep p dtv s).t) / dtv⌉₊ = ⌈(F - s.t) / dtv⌉₊ - 1 := by
        rw [hstep]
        have hdiv : (F - (s.t + dtv)) / dtv = (F - s.t) / dtv - 1 := by
          field_simp
          ring
        rw [hdiv, natCeil_sub_one _ hpos]
      obtain ⟨s2, hrun, ht2⟩ := ih (doStep p dtv s) (by omega)
      refine ⟨s2, ?_, ?_⟩
      · have hk : ⌈(F - s.t) / dtv⌉₊ - 1 + 1 = ⌈(F - s.t) / dtv⌉₊ := by omega
        simp only [timeStepping, if_pos hts]
        rw [hrun, hrec]
        show some (s2, ⌈(F - s.t) / dtv⌉₊ - 1 + 1) = some (s2, ⌈(F - s.t) / dtv⌉₊)
        rw [hk]
      · rw [ht2, hrec, hstep]
        have hcast : ((⌈(F - s.t) / dtv⌉₊ - 1 : ℕ) : ℚ)
            = (⌈(F - s.t) / dtv⌉₊ : ℚ) - 1 := by
          push_cast [hk1]
          ring
        rw [hcast]
        ring
    · have hnp : (F - s.t) / dtv ≤ 0 := by
        rw [div_nonpos_iff]
        right
        constructor <;> linarith
      have h0 : ⌈(F - s.t) / dtv⌉₊ = 0 := Nat.ceil_eq_zero.mpr hnp
      refine ⟨s, ?_, ?_⟩
      · simp [timeStepping, if_neg hts, h0]
      · rw [h0]
        simp

/- Membership characterizations for the conditional trace segments. -/

lemma mem_tempExprTrace (p : Parameters) (t : ℚ) (e : Event)
    (he : e ∈ tempExprTrace p t) : e = Event.assign_T_expression t := by
  unfold tempExprTrace at he
  split at he <;> simp_all

lemma mem_refreshTrace (p : Parameters) (t : ℚ) (e : Event)
    (he : e ∈ refreshTrace p t) :
    (∃ n, e = Event.refresh_property n) ∨ e = Event.update_bci t := by
  unfold refreshTrace at he
  simp only [List.mem_append] at he
  rcases he with ((he | he) | he) | he
  · simp only [List.mem_singleton] at he
    exact Or.inl ⟨PropName.D, he⟩
  · split at he
    · simp only [List.mem_singleton] at he
      exact Or.inl ⟨PropName.H, he⟩
    · simp at he
  · split at he
    · simp only [List.mem_singleton] at he
      exact Or.inl ⟨PropName.thermal_cond, he⟩
    · simp at he
  · split at he
    · simp only [List.mem_cons, List.mem_singleton, List.not_mem_nil,
        or_false] at he
      rcases he with he | he
      · exact Or.inl ⟨PropName.S, he⟩
      · exact Or.inr he
    · simp at he

lemma mem_heatTrace (p : Parameters) (e : Event) (he : e ∈ heatTrace p) :
    e = Event.solve_heat_transient (1 / 1000) (1 / 10000000000)
      ∨ e = Event.assign_T_n := by
  unfold heatTrace at he
  split at he <;> simp_all

lemma mem_solveTrapMap (n : ℕ) (e : Event)
    (he : e ∈ (List.range n).map (fun j => Event.solve_extrinsic_trap j [])) :
    ∃ j, e = Event.solve_extrinsic_trap j [] := by
  simp only [List.mem_map] at he
  obtain ⟨j, _, hj⟩ := he
  exact ⟨j, hj.symm⟩

lemma mem_commitTrapMap (n : ℕ) (e : Event)
    (he : e ∈ (List.range n).map (fun j => Event.assign_previous_trap j)) :
    ∃ j, e = Event.assign_previous_trap j := by
  simp only [List.mem_map] at he
  obtain ⟨j, _, hj⟩ := he
  exact ⟨j, hj.symm⟩

/-- C6: In every transient step, the time is advanced by dt and the very first
action of the step (lines 186-188) updates every registered time-dependent
expression to the new current time, strictly before any heat, transport or
trap-ODE solve of the step. -/
theorem C6_expressions_synchronized_before_solves (p : Parameters) (dtv : ℚ)
    (s : SimState) :
    (doStep p dtv s).t = s.t + dtv
    ∧ (stepTrace p (s.t + dtv)).head?
        = some (Event.update_expressions (s.t + dtv))
    ∧ allBefore (stepTrace p (s.t + dtv)) isUpdateExpressionsEvent
        isSolveEvent := by
  refine ⟨doStep_t p dtv s, ?_, ?_⟩
  · simp [stepTrace, List.append_assoc]
  · have hsplit : stepTrace p (s.t + dtv)
        = [Event.update_expressions (s.t + dtv)]
          ++ (tempExprTrace p (s.t + dtv) ++ (refreshTrace p (s.t + dtv)
          ++ (heatTrace p ++ ([Event.solve_it (s.t + dtv)]
          ++ ((List.range (nExtrinsic p)).map
                (fun j => Event.solve_extrinsic_trap j [])
          ++ ([Event.run_post_processing (s.t + dtv)]
          ++ ([Event.assign_u_n]
          ++ (List.range (nExtrinsic p)).map
                (fun j => Event.assign_previous_trap j)))))))) := by
      simp [stepTrace, List.append_assoc]
    rw [hsplit]
    apply allBefore_append_split
    · intro e he
      simp only [List.mem_append, List.mem_singleton] at he
      rcases he with he | he | he | he | he | he | he | he
      · rw [mem_tempExprTrace p _ e he]
        rfl
      · rcases mem_refreshTrace p _ e he with ⟨n, h⟩ | h <;> subst h <;> rfl
      · rcases mem_heatTrace p e he with h | h <;> subst h <;> rfl
      · subst he
        rfl
      · obtain ⟨j, h⟩ := mem_solveTrapMap _ e he
        subst h
        rfl
      · subst he
        rfl
      · subst he
        rfl
      · obtain ⟨j, h⟩ := mem_commitTrapMap _ e he
        subst h
        rfl
    · intro e he
      simp only [List.mem_singleton] at he
      subst he
      rfl

/-- C5: At the end of every transient step, after Post-Processing, the
previous-value slots are overwritten with the current values: u_n equals u,
the previous-solution list equals the extrinsic-trap list, each extrinsic-trap
value was freshly produced within the step (stamp at least s.fresh), and the
commit events all come strictly after the Post-Processing event. -/
theorem C5_commit_after_post_processing (p : Parameters) (dtv : ℚ)
    (s : SimState)
    (h1 : s.extrinsic_traps.length = nExtrinsic p)
    (h2 : s.previous_solutions_traps.length = nExtrinsic p) :
    (doStep p dtv s).u_n = (doStep p dtv s).u
    ∧ (doStep p dtv s).previous_solutions_traps
        = (doStep p dtv s).extrinsic_traps
    ∧ (∀ j, j < nExtrinsic p →
        s.fresh ≤ (doStep p dtv s).extrinsic_traps.getD j 0)
    ∧ allBefore (stepTrace p (s.t + dtv)) isPostProcessingEvent
        isCommitEvent := by
  refine ⟨doStep_u_n_eq_u p dtv s, doStep_prev_eq_extrinsic p dtv s h1 h2,
    doStep_extrinsic_fresh p dtv s h1, ?_⟩
  have hsplit : stepTrace p (s.t + dtv)
      = ([Event.update_expressions (s.t + dtv)]
          ++ (tempExprTrace p (s.t + dtv) ++ (refreshTrace p (s.t + dtv)
          ++ (heatTrace p ++ ([Event.solve_it (s.t + dtv)]
          ++ ((List.range (nExtrinsic p)).map
                (fun j => Event.solve_extrinsic_trap j [])
          ++ [Event.run_post_processing (s.t + dtv)]))))))
        ++ ([Event.assign_u_n]
          ++ (List.range (nExtrinsic p)).map
                (fun j => Event.assign_previous_trap j)) := by
    simp [stepTrace, List.append_assoc]
  rw [hsplit]
  apply allBefore_append_split
  · intro e he
    simp only [List.mem_append, List.mem_singleton] at he
    rcases he with he | he
    · subst he
      rfl
    · obtain ⟨j, h⟩ := mem_commitTrapMap _ e he
      subst h
      rfl
  · intro e he
    simp only [List.mem_append, List.mem_singleton] at he
    rcases he with he | he | he | he | he | he | he
    · subst he
      rfl
    · rw [mem_tempExprTrace p _ e he]
      rfl
    · rcases mem_refreshTrace p _ e he with ⟨n, h⟩ | h <;> subst h <;> rfl
    · rcases mem_heatTrace p e he with h | h <;> subst h <;> rfl
    · subst he
      rfl
    · obtain ⟨j, h⟩ := mem_solveTrapMap _ e he
      subst h
      rfl
    · subst he
      rfl

/-- Witness for C5 at the concrete configuration pBase (one extrinsic trap),
step size 2, starting from the post-setup state. -/
theorem C5_commit_after_post_processing_witness :
    (initialState pBase []).extrinsic_traps.length = nExtrinsic pBase
    ∧ (initialState pBase []).previous_solutions_traps.length = nExtrinsic pBase
    ∧ ((doStep pBase 2 (initialState pBase [])).u_n
        = (doStep pBase 2 (initialState pBase [])).u
      ∧ (doStep pBase 2 (initialState pBase [])).previous_solutions_traps
          = (doStep pBase 2 (initialState pBase [])).extrinsic_traps
      ∧ (∀ j, j < nExtrinsic pBase →
          (initialState pBase []).fresh
            ≤ (doStep pBase 2 (initialState pBase [])).extrinsic_traps.getD j 0)
      ∧ allBefore (stepTrace pBase ((initialState pBase []).t + 2))
          isPostProcessingEvent isCommitEvent) :=
  ⟨by decide, by decide,
    C5_commit_after_post_processing pBase 2 (initialState pBase [])
      (by decide) (by decide)⟩

/-- C4 counterexample: with PDE-driven transient temperature, the property
refresh (D._T = T, line 194) occurs in the step trace strictly BEFORE the heat
solve (lines 212-221), so the claim that the heat subproblem is solved and
committed before every temperature-dependent property refresh is false at this
concrete step. -/
theorem C4_heat_before_refresh_counterexample :
    pBase.temperature_type = ("solve_transient")
    ∧ ¬ allBefore (stepTrace pBase 2) isHeatSolveEvent isRefreshEvent := by
  exact ⟨rfl, by decide⟩

/-- C4 (amended): In every transient step with PDE-driven transient
temperature, the heat solve (with Newton absolute tolerance 1e-3 and relative
tolerance 1e-10) and its commit do occur, the property refresh happens
strictly BEFORE the heat solve (not after, as claimed), and both the refresh
and the heat solve-and-commit happen strictly before the Transport solve of
that step. -/
theorem C4_refresh_then_heat_then_transport (p : Parameters) (t : ℚ)
    (hT : p.temperature_type = ("solve_transient")) :
    Event.solve_heat_transient (1 / 1000) (1 / 10000000000) ∈ stepTrace p t
    ∧ Event.assign_T_n ∈ stepTrace p t
    ∧ allBefore (stepTrace p t) isRefreshEvent isHeatSolveEvent
    ∧ allBefore (stepTrace p t) isRefreshEvent isTransportSolveEvent
    ∧ allBefore (stepTrace p t) isHeatSolveEvent isTransportSolveEvent
    ∧ allBefore (stepTrace p t) isAssignTnEvent isTransportSolveEvent := by
  have hsplitR : stepTrace p t
      = ([Event.update_expressions t]
          ++ (tempExprTrace p t ++ refreshTrace p t))
        ++ (heatTrace p ++ ([Event.solve_it t]
          ++ ((List.range (nExtrinsic p)).map
                (fun j => Event.solve_extrinsic_trap j [])
          ++ ([Event.run_post_processing t]
          ++ ([Event.assign_u_n]
          ++ (List.range (nExtrinsic p)).map
                (fun j => Event.assign_previous_trap j)))))) := by
    simp [stepTrace, List.append_assoc]
  have hsplitH : stepTrace p t
      = ([Event.update_expressions t]
          ++ (tempExprTrace p t ++ (refreshTrace p t ++ heatTrace p)))
        ++ ([Event.solve_it t]
          ++ ((List.range (nExtrinsic p)).map
                (fun j => Event.solve_extrinsic_trap j [])
          ++ ([Event.run_post_processing t]
          ++ ([Event.assign_u_n]
          ++ (List.range (nExtrinsic p)).map
                (fun j => Event.assign_previous_trap j))))) := by
    simp [stepTrace, List.append_assoc]
  have hmemL1 : ∀ e ∈ [Event.update_expressions t]
      ++ (tempExprTrace p t ++ refreshTrace p t),
      isHeatSolveEvent e = false ∧ isTransportSolveEvent e = false := by
    intro e he
    simp only [List.mem_append, List.mem_singleton] at he
    rcases he with he | he | he
    · subst he
      exact ⟨rfl, rfl⟩
    · rw [mem_tempExprTrace p _ e he]
      exact ⟨rfl, rfl⟩
    · rcases mem_refreshTrace p _ e he with ⟨n, h⟩ | h <;> subst h <;>
        exact ⟨rfl, rfl⟩
  have hmemR : ∀ e ∈ heatTrace p ++ ([Event.solve_it t]
      ++ ((List.range (nExtrinsic p)).map
            (fun j => Event.solve_extrinsic_trap j [])
      ++ ([Event.run_post_processing t]
      ++ ([Event.assign_u_n]
      ++ (List.range (nExtrinsic p)).map
            (fun j => Event.assign_previous_trap j))))),
      isRefreshEvent e = false := by
    intro e he
    simp only [List.mem_append, List.mem_singleton] at he
    rcases he with he | he | he | he | he | he
    · rcases mem_heatTrace p e he with h | h <;> subst h <;> rfl
    · subst he
      rfl
    · obtain ⟨j, h⟩ := mem_solveTrapMap _ e he
      subst h
      rfl
    · subst he
      rfl
    · subst he
      rfl
    · obtain ⟨j, h⟩ := mem_commitTrapMap _ e he
      subst h
      rfl
  have hmemTail : ∀ e ∈ [Event.solve_it t]
      ++ ((List.range (nExtrinsic p)).map
            (fun j => Event.solve_extrinsic_trap j [])
      ++ ([Event.run_post_processing t]
      ++ ([Event.assign_u_n]
      ++ (List.range (nExtrinsic p)).map
            (fun j => Event.assign_previous_trap j)))),
      isHeatSolveEvent e = false ∧ isAssignTnEvent e = false
        ∧ isRefreshEvent e = false := by
    intro e he
    simp only [List.mem_append, List.mem_singleton] at he
    rcases he with he | he | he | he | he
    · subst he
      exact ⟨rfl, rfl, rfl⟩
    · obtain ⟨j, h⟩ := mem_solveTrapMap _ e he
      subst h
      exact ⟨rfl, rfl, rfl⟩
    · subst he
      exact ⟨rfl, rfl, rfl⟩
    · subst he
      exact ⟨rfl, rfl, rfl⟩
    · obtain ⟨j, h⟩ := mem_commitTrapMap _ e he
      subst h
      exact ⟨rfl, rfl, rfl⟩
  have hmemHeatSeg : ∀ e ∈ [Event.update_expressions t]
      ++ (tempExprTrace p t ++ (refreshTrace p t ++ heatTrace p)),
      isTransportSolveEvent e = false := by
    intro e he
    simp only [List.mem_append, List.mem_singleton] at he
    rcases he with he | he | he | he
    · subst he
      rfl
    · rw [mem_tempExprTrace p _ e he]
      rfl
    · rcases mem_refreshTrace p _ e he with ⟨n, h⟩ | h <;> subst h <;> rfl
    · rcases mem_heatTrace p e he with h | h <;> subst h <;> rfl
  refine ⟨?_, ?_, ?_, ?_, ?_, ?_⟩
  · simp [stepTrace, heatTrace, hT]
  · simp [stepTrace, heatTrace, hT]
  · rw [hsplitR]
    exact allBefore_append_split _ _ _ _ hmemR
      (fun e he => (hmemL1 e he).1)
  · rw [hsplitR]
    exact allBefore_append_split _ _ _ _ hmemR
      (fun e he => (hmemL1 e he).2)
  · rw [hsplitH]
    exact allBefore_append_split _ _ _ _
      (fun e he => (hmemTail e he).1) hmemHeatSeg
  · rw [hsplitH]
    apply allBefore_append_split
    · exact fun e he => (hmemTail e he).2.1
    · intro e he
      simp only [List.mem_append, List.mem_singleton] at he
      rcases he with he | he | he | he
      · subst he
        rfl
      · rw [mem_tempExprTrace p _ e he]
        rfl
      · rcases mem_refreshTrace p _ e he with ⟨n, h⟩ | h <;> subst h <;> rfl
      · rcases mem_heatTrace p e he with h | h <;> subst h <;> rfl

/-- Witness for the amended C4 at the concrete configuration pBase, time 2. -/
theorem C4_refresh_then_heat_then_transport_witness :
    pBase.temperature_type = ("solve_transient")
    ∧ (Event.solve_heat_transient (1 / 1000) (1 / 10000000000)
          ∈ stepTrace pBase 2
      ∧ Event.assign_T_n ∈ stepTrace pBase 2
      ∧ allBefore (stepTrace pBase 2) isRefreshEvent isHeatSolveEvent
      ∧ allBefore (stepTrace pBase 2) isRefreshEvent isTransportSolveEvent
      ∧ allBefore (stepTrace pBase 2) isHeatSolveEvent isTransportSolveEvent
      ∧ allBefore (stepTrace pBase 2) isAssignTnEvent isTransportSolveEvent) :=
  ⟨rfl, C4_refresh_then_heat_then_transport pBase 2 rfl⟩

/-- C7: In every transient step the extrinsic trap ODE solves appear as one
contiguous block containing exactly one solve per declared extrinsic trap, in
declaration order j = 0..n-1, each with an empty boundary-condition list; the
block lies strictly after the Transport solve and strictly before both the
Post-Processing invocation and the commit of the previous-value slots. -/
theorem C7_trap_odes_after_transport_before_post (p : Parameters) (t : ℚ) :
    (∃ l1 l2, stepTrace p t
        = l1 ++ ((List.range (nExtrinsic p)).map
            (fun j => Event.solve_extrinsic_trap j []) ++ l2)
      ∧ (∀ e ∈ l1, isTrapSolveEvent e = false)
      ∧ (∀ e ∈ l2, isTrapSolveEvent e = false))
    ∧ allBefore (stepTrace p t) isTransportSolveEvent isTrapSolveEvent
    ∧ allBefore (stepTrace p t) isTrapSolveEvent isPostProcessingEvent
    ∧ allBefore (stepTrace p t) isTrapSolveEvent isCommitEvent := by
  have hsplitT : stepTrace p t
      = ([Event.update_expressions t]
          ++ (tempExprTrace p t ++ (refreshTrace p t ++ (heatTrace p
          ++ [Event.solve_it t]))))
        ++ ((List.range (nExtrinsic p)).map
              (fun j => Event.solve_extrinsic_trap j [])
          ++ ([Event.run_post_processing t]
          ++ ([Event.assign_u_n]
          ++ (List.range (nExtrinsic p)).map
                (fun j => Event.assign_previous_trap j)))) := by
    simp [stepTrace, List.append_assoc]
  have hsplitM : stepTrace p t
      = ([Event.update_expressions t]
          ++ (tempExprTrace p t ++ (refreshTrace p t ++ (heatTrace p
          ++ ([Event.solve_it t]
          ++ (List.range (nExtrinsic p)).map
                (fun j => Event.solve_extrinsic_trap j []))))))
        ++ ([Event.run_post_processing t]
          ++ ([Event.assign_u_n]
          ++ (List.range (nExtrinsic p)).map
                (fun j => Event.assign_previous_trap j))) := by
    simp [stepTrace, List.append_assoc]
  have hpre : ∀ e ∈ [Event.update_expressions t]
      ++ (tempExprTrace p t ++ (refreshTrace p t ++ (heatTrace p
      ++ [Event.solve_it t]))),
      isTrapSolveEvent e = false := by
    intro e he
    simp only [List.mem_append, List.mem_singleton] at he
    rcases he with he | he | he | he | he
    · subst he
      rfl
    · rw [mem_tempExprTrace p _ e he]
      rfl
    · rcases mem_refreshTrace p _ e he with ⟨n, h⟩ | h <;> subst h <;> rfl
    · rcases mem_heatTrace p e he with h | h <;> subst h <;> rfl
    · subst he
      rfl
  have hpost : ∀ e ∈ [Event.run_post_processing t]
      ++ ([Event.assign_u_n]
      ++ (List.range (nExtrinsic p)).map
            (fun j => Event.assign_previous_trap j)),
      isTrapSolveEvent e = false ∧ isTransportSolveEvent e = false := by
    intro e he
    simp only [List.mem_append, List.mem_singleton] at he
    rcases he with he | he | he
    · subst he
      exact ⟨rfl, rfl⟩
    · subst he
      exact ⟨rfl, rfl⟩
    · obtain ⟨j, h⟩ := mem_commitTrapMap _ e he
      subst h
      exact ⟨rfl, rfl⟩
  refine ⟨?_, ?_, ?_, ?_⟩
  · refine ⟨[Event.update_expressions t]
      ++ (tempExprTrace p t ++ (refreshTrace p t ++ (heatTrace p
      ++ [Event.solve_it t]))),
      [Event.run_post_processing t]
      ++ ([Event.assign_u_n]
      ++ (List.range (nExtrinsic p)).map
            (fun j => Event.assign_previous_trap j)), ?_, hpre,
      fun e he => (hpost e he).1⟩
    rw [hsplitT]
  · rw [hsplitT]
    apply allBefore_append_split
    · intro e he
      simp only [List.mem_append, List.mem_singleton] at he
      rcases he with he | he | he | he
      · obtain ⟨j, h⟩ := mem_solveTrapMap _ e he
        subst h
        rfl
      · subst he
        rfl
      · subst he
        rfl
      · obtain ⟨j, h⟩ := mem_commitTrapMap _ e he
        subst h
        rfl
    · intro e he
      simp only [List.mem_append, List.mem_singleton] at he
      rcases he with he | he | he | he | he
      · subst he
        rfl
      · rw [mem_tempExprTrace p _ e he]
        rfl
      · rcases mem_refreshTrace p _ e he with ⟨n, h⟩ | h <;> subst h <;> rfl
      · rcases mem_heatTrace p e he with h | h <;> subst h <;> rfl
      · subst he
        rfl
  · rw [hsplitM]
    apply allBefore_append_split
    · intro e he
      exact (hpost e he).1
    · intro e he
      simp only [List.mem_append, List.mem_singleton] at he
      rcases he with he | he | he | he | he | he
      · subst he
        rfl
      · rw [mem_tempExprTrace p _ e he]
        rfl
      · rcases mem_refreshTrace p _ e he with ⟨n, h⟩ | h <;> subst h <;> rfl
      · rcases mem_heatTrace p e he with h | h <;> subst h <;> rfl
      · subst he
        rfl
      · obtain ⟨j, h⟩ := mem_solveTrapMap _ e he
        subst h
        rfl
  · rw [hsplitM]
    apply allBefore_append_split
    · intro e he
      exact (hpost e he).1
    · intro e he
      simp only [List.mem_append, List.mem_singleton] at he
      rcases he with he | he | he | he | he | he
      · subst he
        rfl
      · rw [mem_tempExprTrace p _ e he]
        rfl
      · rcases mem_refreshTrace p _ e he with ⟨n, h⟩ | h <;> subst h <;> rfl
      · rcases mem_heatTrace p e he with h | h <;> subst h <;> rfl
      · subst he
        rfl
      · obtain ⟨j, h⟩ := mem_solveTrapMap _ e he
        subst h
        rfl

/-- C2: For a transient run with final_time F > 0 and fixed step dt > 0,
starting from t = 0 (line 178), the while loop (lines 184-186) completes
exactly ceil(F/dt) iterations (for any sufficient fuel), and on exit the time
satisfies F <= t < F + dt, under exact arithmetic. -/
theorem C2_step_count_and_final_time (p : Parameters) (dtv F : ℚ)
    (s : SimState) (fuel : ℕ) (hF : 0 < F) (hdt : 0 < dtv) (ht0 : s.t = 0)
    (hfuel : ⌈F / dtv⌉₊ ≤ fuel) :
    ∃ s2, timeStepping p dtv F fuel s = some (s2, ⌈F / dtv⌉₊)
      ∧ s2.t = (⌈F / dtv⌉₊ : ℚ) * dtv ∧ F ≤ s2.t ∧ s2.t < F + dtv := by
  have h1 : ⌈(F - s.t) / dtv⌉₊ = ⌈F / dtv⌉₊ := by
    rw [ht0]
    norm_num
  obtain ⟨s2, hrun, ht2⟩ := timeStepping_spec p dtv F hdt fuel s
    (by rw [h1]; exact hfuel)
  rw [h1] at hrun ht2
  rw [ht0, zero_add] at ht2
  refine ⟨s2, hrun, ht2, ?_, ?_⟩
  · rw [ht2]
    have hle : F / dtv ≤ (⌈F / dtv⌉₊ : ℚ) := Nat.le_ceil _
    have hmul := mul_le_mul_of_nonneg_right hle hdt.le
    rw [div_mul_cancel₀ _ (ne_of_gt hdt)] at hmul
    linarith
  · rw [ht2]
    have hlt : ((⌈F / dtv⌉₊ : ℚ)) < F / dtv + 1 :=
      Nat.ceil_lt_add_one (by positivity)
    have hmul := mul_lt_mul_of_pos_right hlt hdt
    rw [add_mul, one_mul, div_mul_cancel₀ _ (ne_of_gt hdt)] at hmul
    linarith

/-- Witness for C2 at F = 3, dt = 2: the loop completes ceil(3/2) = 2
iterations and exits with t = 4. -/
theorem C2_step_count_and_final_time_witness :
    (0 : ℚ) < 3 ∧ (0 : ℚ) < 2 ∧ (initialState pBase []).t = 0
    ∧ ⌈(3 : ℚ) / 2⌉₊ ≤ 2
    ∧ ∃ s2, timeStepping pBase 2 3 2 (initialState pBase [])
          = some (s2, ⌈(3 : ℚ) / 2⌉₊)
        ∧ s2.t = (⌈(3 : ℚ) / 2⌉₊ : ℚ) * 2 ∧ (3 : ℚ) ≤ s2.t ∧ s2.t < 3 + 2 := by
  have hc : ⌈(3 : ℚ) / 2⌉₊ ≤ 2 := by
    rw [Nat.ceil_le]
    norm_num
  exact ⟨by norm_num, by norm_num, rfl, hc,
    C2_step_count_and_final_time pBase 2 3 (initialState pBase []) 2
      (by norm_num) (by norm_num) rfl hc⟩

/-- C1: If solving_parameters has a "type" key whose value is neither
"solve_transient" nor "solve_stationary", run raises ValueError (the
configuration error, lines 64-66) -- provided the best-effort parameter export
did not itself abort the run earlier with an uncaught exception -- and the
trace at that point contains no mesh construction and no solve of any kind:
the failure precedes the mesh build (line 76) and every solve. -/
theorem C1_unknown_solving_type_raises (p : Parameters) (fuel : ℕ)
    (ty : String) (hty : p.solving_parameters.type = some ty)
    (h1 : ty ≠ ("solve_transient")) (h2 : ty ≠ ("solve_stationary"))
    (hexp : ∀ e, p.exports_parameters ≠ some (ExportOutcome.raisesOther e)) :
    (run p fuel).2 = Status.raised (Exc.ValueError (ty ++ (" unkown")))
    ∧ ∀ e ∈ (run p fuel).1.trace,
        e ≠ Event.create_mesh ∧ isSolveEvent e = false := by
  have hct : checkTransient p.solving_parameters
      = Except.error (Exc.ValueError (ty ++ (" unkown"))) := by
    unfold checkTransient
    rw [hty]
    simp [h1, h2]
  rcases hexppat : p.exports_parameters with _ | o
  · constructor
    · simp [run, exportParametersStep, hexppat, hct]
    · intro e he
      simp [run, exportParametersStep, hexppat, hct, abortState] at he
  · cases o with
    | success =>
      constructor
      · simp [run, exportParametersStep, hexppat, hct]
      · intro e he
        simp only [run, exportParametersStep, hexppat, hct, abortState] at he
        simp at he
        subst he
        exact ⟨by simp, rfl⟩
    | raisesTypeError =>
      constructor
      · simp [run, exportParametersStep, hexppat, hct]
      · intro e he
        simp only [run, exportParametersStep, hexppat, hct, abortState] at he
        simp at he
        subst he
        exact ⟨by simp, rfl⟩
    | raisesOther e2 =>
      exact absurd hexppat (hexp e2)

/-- Witness for C1 at a concrete misspelled solving type. -/
theorem C1_unknown_solving_type_raises_witness :
    pBadType.solving_parameters.type = some ("solve_stationnary")
    ∧ ("solve_stationnary") ≠ ("solve_transient")
    ∧ ("solve_stationnary") ≠ ("solve_stationary")
    ∧ ((run pBadType 0).2
        = Status.raised (Exc.ValueError (("solve_stationnary") ++ (" unkown")))
      ∧ ∀ e ∈ (run pBadType 0).1.trace,
          e ≠ Event.create_mesh ∧ isSolveEvent e = false) :=
  ⟨rfl, by decide, by decide,
    C1_unknown_solving_type_raises pBadType 0 ("solve_stationnary") rfl
      (by decide) (by decide)
      (fun _ h => Option.noConfusion h)⟩

/- Helper lemmas for the run-level claims. -/

@[simp] lemma transportOnceStep_t (s : SimState) :
    (transportOnceStep s).t = s.t := rfl

@[simp] lemma transportOnceStep_u_n (s : SimState) :
    (transportOnceStep s).u_n = s.u_n := rfl

@[simp] lemma transportOnceStep_previous (s : SimState) :
    (transportOnceStep s).previous_solutions_traps
      = s.previous_solutions_traps := rfl

@[simp] lemma transportOnceStep_trace (s : SimState) :
    (transportOnceStep s).trace = s.trace ++ [Event.solve_once] := rfl

@[simp] lemma initialState_t (p : Parameters) (tr : List Event) :
    (initialState p tr).t = 0 := rfl

@[simp] lemma initialState_u_n (p : Parameters) (tr : List Event) :
    (initialState p tr).u_n = 1 := rfl

@[simp] lemma initialState_previous (p : Parameters) (tr : List Event) :
    (initialState p tr).previous_solutions_traps
      = (List.range (nExtrinsic p)).map (fun j => 4 + nExtrinsic p + j) := rfl

@[simp] lemma initialState_trace (p : Parameters) (tr : List Event) :
    (initialState p tr).trace = tr := rfl

lemma countP_setupTrace_zero (p : Parameters) (c : Event → Bool)
    (h1 : c Event.create_mesh = false)
    (h2 : c Event.solve_heat_stationary = false) :
    (setupTrace p).countP c = 0 := by
  unfold setupTrace
  split <;> simp [List.countP_append, List.countP_cons, h1, h2]

lemma countP_exportEvents_zero (p : Parameters) (c : Event → Bool)
    (h : c Event.export_parameters_attempted = false) :
    ((exportParametersStep p).1).countP c = 0 := by
  unfold exportParametersStep
  rcases p.exports_parameters with _ | o
  · rfl
  · cases o <;> simp [List.countP_cons, h]

/-- The loop body reads the configuration only through temperature_type,
traps, has_H, has_thermal_cond, has_S. -/
lemma doStep_congr (pA pB : Parameters) (dtv : ℚ) (s : SimState)
    (htemp : pA.temperature_type = pB.temperature_type)
    (htraps : pA.traps = pB.traps)
    (hH : pA.has_H = pB.has_H)
    (hTC : pA.has_thermal_cond = pB.has_thermal_cond)
    (hS : pA.has_S = pB.has_S) :
    doStep pA dtv s = doStep pB dtv s := by
  unfold doStep tempExprStep refreshStep heatStep nExtrinsic
  rw [htemp, htraps, hH, hTC, hS]

lemma timeStepping_congr (pA pB : Parameters) (dtv F : ℚ)
    (hstep : ∀ s, doStep pA dtv s = doStep pB dtv s) :
    ∀ (fuel : ℕ) (s : SimState),
      timeStepping pA dtv F fuel s = timeStepping pB dtv F fuel s := by
  intro fuel
  induction fuel with
  | zero => intro s; rfl
  | succ fuel ih =>
    intro s
    unfold timeStepping
    rw [hstep s, ih (doStep pB dtv s)]

/-- run reads the configuration only through the export step, the resolved
transient flag, final_time, initial_stepsize, and the fields read by the loop
body and by setup. -/
lemma run_congr (pA pB : Parameters)
    (hexp : exportParametersStep pA = exportParametersStep pB)
    (hct : checkTransient pA.solving_parameters
      = checkTransient pB.solving_parameters)
    (hft : pA.solving_parameters.final_time = pB.solving_parameters.final_time)
    (hsz : pA.solving_parameters.initial_stepsize
      = pB.solving_parameters.initial_stepsize)
    (htemp : pA.temperature_type = pB.temperature_type)
    (htraps : pA.traps = pB.traps)
    (hH : pA.has_H = pB.has_H)
    (hTC : pA.has_thermal_cond = pB.has_thermal_cond)
    (hS : pA.has_S = pB.has_S) :
    ∀ fuel, run pA fuel = run pB fuel := by
  intro fuel
  have hts : ∀ (dtv F : ℚ) (fl : ℕ) (s : SimState),
      timeStepping pA dtv F fl s = timeStepping pB dtv F fl s :=
    fun dtv F fl s => timeStepping_congr pA pB dtv F
      (fun s2 => doStep_congr pA pB dtv s2 htemp htraps hH hTC hS) fl s
  have hsetup : setupTrace pA = setupTrace pB := by
    unfold setupTrace
    rw [htemp]
  have hinit : ∀ tr, initialState pA tr = initialState pB tr := by
    intro tr
    unfold initialState nExtrinsic
    rw [htraps]
  simp only [run, hexp, hct, hft, hsz, hsetup, hinit, hts]

/-- In stationary mode (and with no uncaught export failure), run reduces to
setup, one solve_once, one post-processing. -/
lemma run_stationary_eq (p : Parameters) (fuel : ℕ)
    (hty : p.solving_parameters.type = some ("solve_stationary"))
    (hexp : ∀ e, p.exports_parameters ≠ some (ExportOutcome.raisesOther e)) :
    run p fuel = (postStep (transportOnceStep (initialState p
      ((exportParametersStep p).1 ++ setupTrace p))), Status.completed) := by
  have hct : checkTransient p.solving_parameters = Except.ok false := by
    unfold checkTransient
    rw [hty]
    simp
  rcases hexppat : p.exports_parameters with _ | o
  · simp [run, exportParametersStep, hexppat, hct]
  · cases o with
    | success => simp [run, exportParametersStep, hexppat, hct]
    | raisesTypeError => simp [run, exportParametersStep, hexppat, hct]
    | raisesOther e2 => exact absurd hexppat (hexp e2)

/-- C3: For a stationary configuration, run completes with exactly one
Transport solve -- and that solve is via solve_once -- and exactly one
Post-Processing invocation, and performs no commit: no commit event occurs
and u_n and the previous-solution slots keep their initial (pre-solve)
values. -/
theorem C3_stationary_one_solve_one_post (p : Parameters) (fuel : ℕ)
    (hty : p.solving_parameters.type = some ("solve_stationary"))
    (hexp : ∀ e, p.exports_parameters ≠ some (ExportOutcome.raisesOther e)) :
    (run p fuel).2 = Status.completed
    ∧ (run p fuel).1.trace.countP isTransportSolveEvent = 1
    ∧ (run p fuel).1.trace.countP isSolveOnceEvent = 1
    ∧ (run p fuel).1.trace.countP isPostProcessingEvent = 1
    ∧ (run p fuel).1.trace.countP isCommitEvent = 0
    ∧ (run p fuel).1.u_n = (initialState p []).u_n
    ∧ (run p fuel).1.previous_solutions_traps
        = (initialState p []).previous_solutions_traps := by
  rw [run_stationary_eq p fuel hty hexp]
  refine ⟨rfl, ?_, ?_, ?_, ?_, by simp, by simp⟩
  · simp [List.countP_append, List.countP_cons, isTransportSolveEvent,
      countP_setupTrace_zero p isTransportSolveEvent rfl rfl,
      countP_exportEvents_zero p isTransportSolveEvent rfl]
  · simp [List.countP_append, List.countP_cons, isSolveOnceEvent,
      countP_setupTrace_zero p isSolveOnceEvent rfl rfl,
      countP_exportEvents_zero p isSolveOnceEvent rfl]
  · simp [List.countP_append, List.countP_cons, isPostProcessingEvent,
      countP_setupTrace_zero p isPostProcessingEvent rfl rfl,
      countP_exportEvents_zero p isPostProcessingEvent rfl]
  · simp [List.countP_append, List.countP_cons, isCommitEvent,
      countP_setupTrace_zero p isCommitEvent rfl rfl,
      countP_exportEvents_zero p isCommitEvent rfl]

/-- Witness for C3 at the concrete stationary configuration. -/
theorem C3_stationary_one_solve_one_post_witness :
    pStationary.solving_parameters.type = some ("solve_stationary")
    ∧ ((run pStationary 0).2 = Status.completed
      ∧ (run pStationary 0).1.trace.countP isTransportSolveEvent = 1
      ∧ (run pStationary 0).1.trace.countP isSolveOnceEvent = 1
      ∧ (run pStationary 0).1.trace.countP isPostProcessingEvent = 1
      ∧ (run pStationary 0).1.trace.countP isCommitEvent = 0
      ∧ (run pStationary 0).1.u_n = (initialState pStationary []).u_n
      ∧ (run pStationary 0).1.previous_solutions_traps
          = (initialState pStationary []).previous_solutions_traps) :=
  ⟨rfl, C3_stationary_one_solve_one_post pStationary 0 rfl
    (fun _ h => Option.noConfusion h)⟩

/-- C8 counterexample: a parameter-export failure other than TypeError is NOT
caught: run aborts with the export's exception (here OSError) instead of
continuing, so "any failure of the parameter export is caught and ignored" is
false. -/
theorem C8_export_failure_surfaced_counterexample :
    pExportOther.exports_parameters
        = some (ExportOutcome.raisesOther Exc.OSError)
    ∧ (run pExportOther 2).2 = Status.raised Exc.OSError
    ∧ (run pExportOther 2).2 ≠ Status.completed := by
  exact ⟨rfl, rfl, by decide⟩

/-- C8 (amended): only a TypeError raised by the parameter export is caught
and ignored at the point of use (lines 50-53): in that case run behaves
exactly as if the export had succeeded, and the failure is never surfaced.
Failures of any other exception class propagate to the caller. -/
theorem C8_export_type_error_ignored (p : Parameters) (fuel : ℕ)
    (h : p.exports_parameters = some ExportOutcome.raisesTypeError) :
    run p fuel
      = run { p with exports_parameters := some ExportOutcome.success } fuel := by
  apply run_congr
  · unfold exportParametersStep
    rw [h]
  all_goals rfl

/-- Witness for the amended C8 at the concrete configuration whose export
raises TypeError. -/
theorem C8_export_type_error_ignored_witness :
    pExportTypeErr.exports_parameters = some ExportOutcome.raisesTypeError
    ∧ run pExportTypeErr 1
        = run { pExportTypeErr with
            exports_parameters := some ExportOutcome.success } 1 :=
  ⟨rfl, C8_export_type_error_ignored pExportTypeErr 1 rfl⟩

/-- C10: When solving_parameters has no "type" key, the transient flag keeps
its default True (lines 58-59): no configuration error is raised for the
missing key, run behaves exactly as with type = "solve_transient", and
final_time and initial_stepsize become required (their absence raises
KeyError, lines 71-72). -/
theorem C10_missing_type_defaults_to_transient (p : Parameters) (fuel : ℕ)
    (hty : p.solving_parameters.type = none) :
    checkTransient p.solving_parameters = Except.ok true
    ∧ run p fuel = run { p with solving_parameters :=
        { p.solving_parameters with type := some ("solve_transient") } } fuel
    ∧ (p.solving_parameters.final_time = none →
        (∀ e, p.exports_parameters ≠ some (ExportOutcome.raisesOther e)) →
        (run p fuel).2 = Status.raised (Exc.KeyError ("final_time")))
    ∧ (p.solving_parameters.final_time ≠ none →
        p.solving_parameters.initial_stepsize = none →
        (∀ e, p.exports_parameters ≠ some (ExportOutcome.raisesOther e)) →
        (run p fuel).2 = Status.raised (Exc.KeyError ("initial_stepsize"))) := by
  refine ⟨?_, ?_, ?_, ?_⟩
  · unfold checkTransient
    rw [hty]
  · apply run_congr
    · rfl
    · unfold checkTransient
      rw [hty]
      simp
    all_goals rfl
  · intro hft hexp
    have hct : checkTransient p.solving_parameters = Except.ok true := by
      unfold checkTransient
      rw [hty]
    rcases hexppat : p.exports_parameters with _ | o
    · simp [run, exportParametersStep, hexppat, hct, hft]
    · cases o with
      | success => simp [run, exportParametersStep, hexppat, hct, hft]
      | raisesTypeError => simp [run, exportParametersStep, hexppat, hct, hft]
      | raisesOther e2 => exact absurd hexppat (hexp e2)
  · intro hft hsz hexp
    obtain ⟨F, hF⟩ := Option.ne_none_iff_exists.mp hft
    have hct : checkTransient p.solving_parameters = Except.ok true := by
      unfold checkTransient
      rw [hty]
    rcases hexppat : p.exports_parameters with _ | o
    · simp [run, exportParametersStep, hexppat, hct, hF.symm, hsz]
    · cases o with
      | success => simp [run, exportParametersStep, hexppat, hct, hF.symm, hsz]
      | raisesTypeError =>
        simp [run, exportParametersStep, hexppat, hct, hF.symm, hsz]
      | raisesOther e2 => exact absurd hexppat (hexp e2)

/-- Witness for C10 at the concrete configuration without a "type" key. -/
theorem C10_missing_type_defaults_to_transient_witness :
    pNoType.solving_parameters.type = none
    ∧ (checkTransient pNoType.solving_parameters = Except.ok true
      ∧ run pNoType 2 = run { pNoType with solving_parameters :=
          { pNoType.solving_parameters with
              type := some ("solve_transient") } } 2
      ∧ (pNoType.solving_parameters.final_time = none →
          (∀ e, pNoType.exports_parameters
              ≠ some (ExportOutcome.raisesOther e)) →
          (run pNoType 2).2 = Status.raised (Exc.KeyError ("final_time")))
      ∧ (pNoType.solving_parameters.final_time ≠ none →
          pNoType.solving_parameters.initial_stepsize = none →
          (∀ e, pNoType.exports_parameters
              ≠ some (ExportOutcome.raisesOther e)) →
          (run pNoType 2).2
            = Status.raised (Exc.KeyError ("initial_stepsize")))) :=
  ⟨rfl, C10_missing_type_defaults_to_transient pNoType 2 rfl⟩

/-- C9 (modelled from the spec, since the post-processing/make_output code is
not under src): for a two-trap configuration with solute 1 and trap densities
2 and 3, the retention field equals 1 + 2 + 3 = 6 at every point: retention is
the pointwise sum of the solute concentration and all trap densities. -/
theorem C9_retention_two_traps (α : Type) (x : α) :
    retention_field α (fun _ => 1) [fun _ => 2, fun _ => 3] x = 6 := by
  simp [retention_field]
  norm_num

end FESTIMModel
